import Mathlib

/-!
Shallow embedding of the AdguardTeam/GithubActionsRunner orchestration core
(`src/lib/github/GithubApiManager.ts`, `src/lib/GitHubActionsRunner.ts`,
`src/lib/constants.ts`), together with theorems checking the natural-language
specification against it.

Remote calls are modelled by environments: a function giving, for each call
(or for the i-th attempt of a polled call), the outcome the GitHub API client
would produce — either a response or a thrown error.  Durations of the remote
calls are modelled explicitly so that the timing claims about the polling
loops can be stated; time advances by the probe duration at each attempt and
by the fixed polling interval at each sleep.
-/

namespace GhRunner

/-- Constant `POLLING_INTERVAL_MS` from `src/lib/constants.ts`. -/
def POLLING_INTERVAL_MS : Nat := 1000 * 5

/-- Constant `WORKFLOW_RUN_SUCCESSFUL_CONCLUSION_STATUS` from `GithubApiManager.ts`. -/
def WORKFLOW_RUN_SUCCESSFUL_CONCLUSION_STATUS : String := "success"

/-- An error thrown by the GitHub API client.  `withStatus` is an error object
carrying a numeric `status` field (the `isErrorWithStatus` type guard from
`src/lib/utils/errors` accepts it); `noStatus` is any other thrown error, e.g.
a transport failure. -/
inductive ApiErr where
  | withStatus (status : Nat)
  | noStatus (msg : String)
deriving DecidableEq

/-- A successful HTTP response as inspected by the manager: only the status
code is read. -/
structure HttpResponse where
  status : Nat
deriving DecidableEq

/-- Method `GithubApiManager.hasCommit`: 200 means the commit exists; a thrown error
with status 404 or 422 means it does not exist yet; any other thrown error is
rethrown. -/
def hasCommit (r : Except ApiErr HttpResponse) : Except ApiErr Bool :=
  match r with
  | .ok response => .ok (response.status == 200)
  | .error e =>
    match e with
    | .withStatus s => if s == 404 || s == 422 then .ok false else .error e
    | .noStatus _ => .error e

/-- Method `GithubApiManager.hasBranch`: 200 means the branch exists; a thrown error
with status 404 means it does not; any other thrown error is rethrown
(422 is NOT handled here, unlike `hasCommit`). -/
def hasBranch (r : Except ApiErr HttpResponse) : Except ApiErr Bool :=
  match r with
  | .ok response => .ok (response.status == 200)
  | .error e =>
    match e with
    | .withStatus s => if s == 404 then .ok false else .error e
    | .noStatus _ => .error e

/-- Result of one of the waiting loops: the value returned on success together
with the elapsed time, a timeout error with the time at which it was thrown,
or a propagated API-client error with the time at which it was thrown. -/
inductive WaitResult (α : Type) where
  | found (v : α) (t : Nat)
  | timedOut (t : Nat)
  | failed (e : ApiErr) (t : Nat)
deriving DecidableEq

/-- Map the success value of a `WaitResult`. -/
def WaitResult.mapFound {α β : Type} (f : α → β) : WaitResult α → WaitResult β
  | .found v t => .found (f v) t
  | .timedOut t => .timedOut t
  | .failed e t => .failed e t

/-- The common shape of the four recursive wait closures (`tryFetchCommit`,
`tryFetchBranch`, `checkIfWorkflowRunCreated`, `checkIfWorkflowRunCompleted`):
run the probe; on success return its value; otherwise, if the elapsed time
(measured from just before the first probe) exceeds the timeout, throw a
timeout error; otherwise sleep `POLLING_INTERVAL_MS` and recurse.  `probe i`
is the outcome of the i-th attempt, `dur i` how long that attempt took,
`elapsed` the time already spent when the i-th attempt starts. -/
def pollUntil {α : Type} (probe : Nat → Except ApiErr (Option α)) (dur : Nat → Nat)
    (timeoutMs : Nat) (i : Nat) (elapsed : Nat) : WaitResult α :=
  match probe i with
  | .error e => .failed e (elapsed + dur i)
  | .ok (some v) => .found v (elapsed + dur i)
  | .ok none =>
    if _h : timeoutMs < elapsed + dur i then .timedOut (elapsed + dur i)
    else pollUntil probe dur timeoutMs (i + 1) (elapsed + dur i + POLLING_INTERVAL_MS)
termination_by timeoutMs + 1 - elapsed
decreasing_by simp only [POLLING_INTERVAL_MS]; omega

/-- The probe used by `waitForCommit`: success exactly when `hasCommit` says
the commit exists. -/
def commitProbe (r : Except ApiErr HttpResponse) : Except ApiErr (Option Unit) :=
  match hasCommit r with
  | .ok true => .ok (some ())
  | .ok false => .ok none
  | .error e => .error e

/-- The probe used by `waitForBranch`. -/
def branchProbe (r : Except ApiErr HttpResponse) : Except ApiErr (Option Unit) :=
  match hasBranch r with
  | .ok true => .ok (some ())
  | .ok false => .ok none
  | .error e => .error e

/-- The `tryFetchCommit` closure inside `GithubApiManager.waitForCommit`:
`getCommitResp i` is the outcome of the i-th `getCommit` call. -/
def tryFetchCommit (getCommitResp : Nat → Except ApiErr HttpResponse) (dur : Nat → Nat)
    (timeoutMs : Nat) (i : Nat) (elapsed : Nat) : WaitResult Unit :=
  match hasCommit (getCommitResp i) with
  | .error e => .failed e (elapsed + dur i)
  | .ok true => .found () (elapsed + dur i)
  | .ok false =>
    if _h : timeoutMs < elapsed + dur i then .timedOut (elapsed + dur i)
    else tryFetchCommit getCommitResp dur timeoutMs (i + 1) (elapsed + dur i + POLLING_INTERVAL_MS)
termination_by timeoutMs + 1 - elapsed
decreasing_by simp only [POLLING_INTERVAL_MS]; omega

/-- Method `GithubApiManager.waitForCommit`. -/
def waitForCommit (getCommitResp : Nat → Except ApiErr HttpResponse) (dur : Nat → Nat)
    (waitForCommitTimeoutMs : Nat) : WaitResult Unit :=
  tryFetchCommit getCommitResp dur waitForCommitTimeoutMs 0 0

/-- The `tryFetchBranch` closure inside `GithubApiManager.waitForBranch`. -/
def tryFetchBranch (getBranchResp : Nat → Except ApiErr HttpResponse) (dur : Nat → Nat)
    (timeoutMs : Nat) (i : Nat) (elapsed : Nat) : WaitResult Unit :=
  match hasBranch (getBranchResp i) with
  | .error e => .failed e (elapsed + dur i)
  | .ok true => .found () (elapsed + dur i)
  | .ok false =>
    if _h : timeoutMs < elapsed + dur i then .timedOut (elapsed + dur i)
    else tryFetchBranch getBranchResp dur timeoutMs (i + 1) (elapsed + dur i + POLLING_INTERVAL_MS)
termination_by timeoutMs + 1 - elapsed
decreasing_by simp only [POLLING_INTERVAL_MS]; omega

/-- Method `GithubApiManager.waitForBranch`. -/
def waitForBranch (getBranchResp : Nat → Except ApiErr HttpResponse) (dur : Nat → Nat)
    (waitForBranchTimeoutMs : Nat) : WaitResult Unit :=
  tryFetchBranch getBranchResp dur waitForBranchTimeoutMs 0 0

/-- The fields of a workflow run that the manager reads.  `name`, `status` and
`conclusion` are nullable in the API payload. -/
structure WorkflowRun where
  id : Nat
  name : Option String
  status : Option String
  conclusion : Option String
  html_url : String
deriving DecidableEq

/-- JavaScript `String.prototype.includes`: `jsIncludes s token` is true when
`token` occurs in `s` as a contiguous substring. -/
def jsIncludes (s token : String) : Bool :=
  (List.range (s.toList.length + 1)).any (fun i => token.toList.isPrefixOf (s.toList.drop i))

/-- The predicate of the `find` inside `getWorkflowRun`:
`run.name?.includes(customWorkflowRunId)` — a run with a null name never
matches. -/
def runNameMatches (customWorkflowRunId : String) (run : WorkflowRun) : Bool :=
  match run.name with
  | some n => jsIncludes n customWorkflowRunId
  | none => false

/-- Method `GithubApiManager.getWorkflowRun`.  `resp = none` models a listing
response whose `data.workflow_runs` chain is missing; otherwise a linear scan
returns the first run whose display name contains the custom id. -/
def getWorkflowRun (resp : Option (List WorkflowRun)) (customWorkflowRunId : String) :
    Option WorkflowRun :=
  match resp with
  | none => none
  | some workflowRuns => workflowRuns.find? (runNameMatches customWorkflowRunId)

/-- The own keys of the `IN_PROGRESS_STATUSES` object literal inside
`waitForWorkflowRunCompletion`; each maps to the same non-empty (hence
truthy) string. -/
def IN_PROGRESS_STATUSES : List String :=
  ["in_progress", "queued", "requested", "waiting", "pending"]

/-- Member names every plain object literal inherits from
`Object.prototype` (including the Annex B legacy accessor-management members,
present in Node).  Looking any of them up on `IN_PROGRESS_STATUSES` yields a
truthy value even though they are not own keys: a function, or the prototype
object itself for `__proto__`. -/
def OBJECT_PROTOTYPE_MEMBERS : List String :=
  ["constructor", "hasOwnProperty", "isPrototypeOf", "propertyIsEnumerable",
   "toLocaleString", "toString", "valueOf", "__proto__", "__defineGetter__",
   "__defineSetter__", "__lookupGetter__", "__lookupSetter__"]

/-- Truthiness of the JavaScript property lookup
`IN_PROGRESS_STATUSES[workflowRun.status]`: true for an own key (its value is
one of the five non-empty status strings, truthy) and also for an inherited
`Object.prototype` member, since the lookup walks the prototype chain; any
other name yields `undefined`, which is falsy. -/
def inProgressLookupTruthy (st : String) : Bool :=
  IN_PROGRESS_STATUSES.contains st || OBJECT_PROTOTYPE_MEMBERS.contains st

/-- JavaScript truthiness of the nullable `status` string (the
`if (workflowRun.status)` guard): a null or empty status is falsy. -/
def statusTruthy : Option String → Bool
  | some s => !(s == "")
  | none => false

/-- The body of the found-run branch of `checkIfWorkflowRunCompleted`: return
the run when its status is truthy and the object lookup
`IN_PROGRESS_STATUSES[status]` (prototype chain included) is falsy, otherwise
fall through to the timeout check. -/
def completionCheck : Option WorkflowRun → Option WorkflowRun
  | some run =>
    if statusTruthy run.status then
      if !(inProgressLookupTruthy (run.status.getD "")) then some run
      else none
    else none
  | none => none

/-- The probe used by `waitForWorkflowRunCreation`: the i-th `listWorkflowRuns`
outcome passed through `getWorkflowRun`. -/
def creationProbe (resp : Except ApiErr (Option (List WorkflowRun))) (customId : String) :
    Except ApiErr (Option WorkflowRun) :=
  match resp with
  | .error e => .error e
  | .ok r => .ok (getWorkflowRun r customId)

/-- The probe used by `waitForWorkflowRunCompletion`. -/
def completionProbe (resp : Except ApiErr (Option (List WorkflowRun))) (customId : String) :
    Except ApiErr (Option WorkflowRun) :=
  match resp with
  | .error e => .error e
  | .ok r => .ok (completionCheck (getWorkflowRun r customId))

/-- The `checkIfWorkflowRunCreated` closure inside
`waitForWorkflowRunCreation`.  As in the TypeScript declaration the result
value has the nullable type `WorkflowRun | null`; the found branch returns the
(non-null) value of the `workflowRun` variable. -/
def checkIfWorkflowRunCreated (listRuns : Nat → Except ApiErr (Option (List WorkflowRun)))
    (dur : Nat → Nat) (customId : String) (timeoutMs : Nat) (i : Nat) (elapsed : Nat) :
    WaitResult (Option WorkflowRun) :=
  match listRuns i with
  | .error e => .failed e (elapsed + dur i)
  | .ok resp =>
    match getWorkflowRun resp customId with
    | some workflowRun => .found (some workflowRun) (elapsed + dur i)
    | none =>
      if _h : timeoutMs < elapsed + dur i then .timedOut (elapsed + dur i)
      else
        checkIfWorkflowRunCreated listRuns dur customId timeoutMs (i + 1)
          (elapsed + dur i + POLLING_INTERVAL_MS)
termination_by timeoutMs + 1 - elapsed
decreasing_by simp only [POLLING_INTERVAL_MS]; omega

/-- Method `GithubApiManager.waitForWorkflowRunCreation`. -/
def waitForWorkflowRunCreation (listRuns : Nat → Except ApiErr (Option (List WorkflowRun)))
    (dur : Nat → Nat) (customId : String) (timeoutMs : Nat) : WaitResult (Option WorkflowRun) :=
  checkIfWorkflowRunCreated listRuns dur customId timeoutMs 0 0

/-- The `checkIfWorkflowRunCompleted` closure inside
`waitForWorkflowRunCompletion`: when a run is found and its status is truthy
and not in the in-progress set, it is returned; otherwise (run absent, status
falsy, or in-progress) fall through to the timeout check and keep polling. -/
def checkIfWorkflowRunCompleted (listRuns : Nat → Except ApiErr (Option (List WorkflowRun)))
    (dur : Nat → Nat) (customId : String) (timeoutMs : Nat) (i : Nat) (elapsed : Nat) :
    WaitResult (Option WorkflowRun) :=
  match listRuns i with
  | .error e => .failed e (elapsed + dur i)
  | .ok resp =>
    match completionCheck (getWorkflowRun resp customId) with
    | some workflowRun => .found (some workflowRun) (elapsed + dur i)
    | none =>
      if _h : timeoutMs < elapsed + dur i then .timedOut (elapsed + dur i)
      else
        checkIfWorkflowRunCompleted listRuns dur customId timeoutMs (i + 1)
          (elapsed + dur i + POLLING_INTERVAL_MS)
termination_by timeoutMs + 1 - elapsed
decreasing_by simp only [POLLING_INTERVAL_MS]; omega

/-- Method `GithubApiManager.waitForWorkflowRunCompletion`. -/
def waitForWorkflowRunCompletion (listRuns : Nat → Except ApiErr (Option (List WorkflowRun)))
    (dur : Nat → Nat) (customId : String) (timeoutMs : Nat) : WaitResult (Option WorkflowRun) :=
  checkIfWorkflowRunCompleted listRuns dur customId timeoutMs 0 0

/-- Start time of the Nth probe attempt when the first N attempts all miss:
the sum of the first N probe durations plus N sleeps. -/
def stepSum (dur : Nat → Nat) (i : Nat) : Nat → Nat
  | 0 => 0
  | n + 1 => dur i + POLLING_INTERVAL_MS + stepSum dur (i + 1) n

/-- JavaScript `String.prototype.split` with a one-character separator,
working on the character list; the accumulator holds the current (reversed)
segment.  `"K=a=b".split("=") = ["K","a","b"]`, `"".split("=") = [""]`. -/
def splitChars (c : Char) : List Char → List Char → List (List Char)
  | [], acc => [acc.reverse]
  | x :: xs, acc =>
    if x == c then acc.reverse :: splitChars c xs []
    else splitChars c xs (x :: acc)

/-- Outcome of parsing one `KEY=VALUE` entry inside `setSecrets`. -/
inductive SecretParse where
  | skippedInvalidFormat
  | skippedBadPair
  | pair (key value : String)
deriving DecidableEq

/-- The parsing done by the per-secret callback in
`GithubApiManager.setSecrets`: skip (with a warning) when the entry is empty
or has no `=` at all; otherwise `const [key, value] = secret.split('=')`
destructures the FIRST TWO components of the full split; skip (with a
warning) when either is empty/undefined. -/
def parseSecret (secret : String) : SecretParse :=
  let cs := secret.toList
  if cs.isEmpty || !(cs.contains '=') then .skippedInvalidFormat
  else
    let parts := splitChars '=' cs []
    let keyChars := parts.getD 0 []
    let valueChars := parts.getD 1 []
    if keyChars.isEmpty || valueChars.isEmpty then .skippedBadPair
    else .pair keyChars.asString valueChars.asString

/-- Split a character list at the FIRST occurrence of `c`, if any. -/
def splitAtFirst (c : Char) : List Char → Option (List Char × List Char)
  | [] => none
  | x :: xs =>
    if x == c then some ([], xs)
    else
      match splitAtFirst c xs with
      | none => none
      | some (l, r) => some (x :: l, r)

/-- Modelled from the spec: "for each `KEY=VALUE` entry (parsed by splitting
on the first `=`; entries with a missing key or value are skipped with a
warning, not fatal)".  The key is the text before the first `=`, the value the
ENTIRE remainder after it.  Stated for refinement comparison against
`parseSecret`, which is translated from the source. -/
def specFirstEqParse (secret : String) : SecretParse :=
  match splitAtFirst '=' secret.toList with
  | none => .skippedInvalidFormat
  | some (keyChars, valueChars) =>
    if keyChars.isEmpty || valueChars.isEmpty then .skippedBadPair
    else .pair keyChars.asString valueChars.asString

/-- Events recording which remote API calls the orchestration performs, plus
the orchestration-internal stages the spec names. -/
inductive Event where
  | commitWait
  | branchWait
  | listSecretsCall
  | deleteSecretCall (name : String)
  | getPublicKeyCall
  | setSecretCall (key : String)
  | dispatchCall
  | runCreationWait
  | runCompletionWait
  | logFetchCall
  | conclusionCheck (conclusion : Option String)
  | listArtifactsCall
  | downloadArtifactCall (id : Nat) (destPath : String)
deriving DecidableEq

/-- Errors surfaced by the orchestration: either an API-client error that
propagated uncaught, or one of the `new Error(...)` throw sites of the
TypeScript code, identified by site and carrying the data interpolated into
its message. -/
inductive RunErr where
  | api (e : ApiErr)
  | commitTimeout (ref : String)
  | branchTimeout (name : String)
  | dispatchFailed (status : Nat)
  | creationTimeout
  | completionTimeout
  | runNotFound
  | logsFailed
  | workflowFailed (conclusion : Option String)
  | publicKeyFailed
  | listArtifactsFailed
  | noArtifactsFound (runName : Option String)
  | artifactFailed (artifactId : Nat)
deriving DecidableEq

/-- How JavaScript template interpolation renders the nullable string
(`null` prints as "null"). -/
def jsShow : Option String → String
  | some s => s
  | none => "null"

/-- The message of the error thrown by `runAction` when the conclusion check
fails: `Workflow run failed with conclusion: "<conclusion>".` -/
def workflowFailedMessage (conclusion : Option String) : String :=
  "Workflow run failed with conclusion: \"" ++ jsShow conclusion ++ "\"."

/-- One artifact, as read by the manager. -/
structure Artifact where
  id : Nat
  name : String
deriving DecidableEq

/-- The environment of remote-call outcomes for one `runAction` invocation:
for polled calls, indexed by attempt number, together with each attempt's
duration. -/
structure Env where
  getCommitResp : Nat → Except ApiErr HttpResponse
  getCommitDur : Nat → Nat
  getBranchResp : Nat → Except ApiErr HttpResponse
  getBranchDur : Nat → Nat
  listSecretsResp : Except ApiErr (List String)
  deleteSecretResp : String → Except ApiErr Nat
  getPublicKeyResp : Except ApiErr (String × String)
  encrypt : String → String → String
  setSecretResp : String → Except ApiErr Nat
  nanoidValue : String
  dispatchResp : Except ApiErr Nat
  listRunsCreationResp : Nat → Except ApiErr (Option (List WorkflowRun))
  listRunsCreationDur : Nat → Nat
  listRunsCompletionResp : Nat → Except ApiErr (Option (List WorkflowRun))
  listRunsCompletionDur : Nat → Nat
  fetchLogsResp : Except ApiErr String
  listArtifactsResp : Except ApiErr (List Artifact)
  downloadArtifactResp : Nat → Except ApiErr Unit

/-- What happened to one deletion inside `syncSecrets`: the callback catches
its own error, so every outcome resolves; failures are only logged. -/
inductive DeleteOutcome where
  | removed (name : String)
  | unexpectedStatus (name : String) (status : Nat)
  | errorLogged (name : String)
deriving DecidableEq

/-- The per-secret deletion callback of `syncSecrets`: status 204 logs
success, any other status logs an error, a thrown error is caught and logged.
No path rethrows. -/
def deleteAttempt (env : Env) (name : String) : DeleteOutcome :=
  match env.deleteSecretResp name with
  | .ok status => if status == 204 then .removed name else .unexpectedStatus name status
  | .error _ => .errorLogged name

/-- Method `GithubApiManager.syncSecrets`: list the existing secret names (an error
here propagates uncaught), delete every existing name not in `secrets`.  Each
deletion callback swallows its own failure, so the `Promise.all` over them
always resolves and the surrounding catch (the aggregate
"Failed to remove one or more secrets" throw) is unreachable; the function
then resolves successfully.  Returns the emitted API-call events and the
per-deletion outcomes. -/
def syncSecrets (env : Env) (secrets : List String) :
    List Event × Except RunErr (List DeleteOutcome) :=
  match env.listSecretsResp with
  | .error e => ([.listSecretsCall], .error (.api e))
  | .ok existingSecrets =>
    let secretsToRemove := existingSecrets.filter (fun s => !secrets.contains s)
    (.listSecretsCall :: secretsToRemove.map (fun n => .deleteSecretCall n),
     .ok (secretsToRemove.map (deleteAttempt env)))

/-- What happened to one entry inside `setSecrets`: skipped entries never
reach the API; attempted entries always resolve because the callback catches
its own error and only logs it. -/
inductive SetOutcome where
  | skippedInvalidFormat (raw : String)
  | skippedBadPair (raw : String)
  | created (key : String)
  | updated (key : String)
  | unexpectedStatus (key : String) (status : Nat)
  | errorLogged (key : String)
deriving DecidableEq

/-- The per-secret callback of `setSecrets`: parse the entry (skipping with a
warning on bad format), encrypt the value, upsert it; status 201 logs
"created", 204 logs "updated", any other status logs an error, and a thrown
error (from encryption or the upsert) is caught and logged.  No path
rethrows.  Returns the API-call event, if any, and the outcome. -/
def setSecretAttempt (env : Env) (publicKeyValue : String) (_publicKeyId : String)
    (secret : String) : Option Event × SetOutcome :=
  match parseSecret secret with
  | .skippedInvalidFormat => (none, .skippedInvalidFormat secret)
  | .skippedBadPair => (none, .skippedBadPair secret)
  | .pair key value =>
    let _encryptedValue := env.encrypt publicKeyValue value
    (some (.setSecretCall key),
     match env.setSecretResp key with
     | .ok status =>
       if status == 201 then .created key
       else if status == 204 then .updated key
       else .unexpectedStatus key status
     | .error _ => .errorLogged key)

/-- Method `GithubApiManager.setSecrets`: optionally sync (prune) first; return
early when the desired list is empty; fetch the public key (failure here
throws "Failed to retrieve the public key for encryption."); then run each
per-secret callback.  Every callback swallows its own failure, so the
`Promise.all` over them always resolves and the surrounding catch (the
aggregate "Failed to set one or more secrets" throw) is unreachable; the
function resolves successfully whatever the per-item outcomes were. -/
def setSecrets (env : Env) (secrets : List String) (syncSecretsFlag : Bool) :
    List Event × Except RunErr (List SetOutcome) :=
  let syncPart : List Event × Except RunErr Unit :=
    if syncSecretsFlag then
      match syncSecrets env secrets with
      | (evs, .error e) => (evs, .error e)
      | (evs, .ok _) => (evs, .ok ())
    else ([], .ok ())
  match syncPart with
  | (evs, .error e) => (evs, .error e)
  | (evs, .ok _) =>
    if secrets.length == 0 then (evs, .ok [])
    else
      match env.getPublicKeyResp with
      | .error _ => (evs ++ [.getPublicKeyCall], .error .publicKeyFailed)
      | .ok (publicKeyValue, publicKeyId) =>
        let attempts := secrets.map (setSecretAttempt env publicKeyValue publicKeyId)
        (evs ++ [.getPublicKeyCall] ++ attempts.filterMap (fun a => a.1),
         .ok (attempts.map (fun a => a.2)))

/-- Method `GithubApiManager.triggerWorkflow`: generate the nanoid custom run id,
dispatch, require status 204, and return the custom id. -/
def triggerWorkflow (env : Env) : Event × Except RunErr String :=
  (.dispatchCall,
   match env.dispatchResp with
   | .error e => .error (.api e)
   | .ok status =>
     if status == 204 then .ok env.nanoidValue else .error (.dispatchFailed status))

/-- Method `GithubApiManager.fetchWorkflowRunLogs`, at the interface level: the log
archive download/extraction is a capability whose outcome the environment
provides; success wraps the text in the start/end markers, any failure is
caught and rethrown as "Failed to fetch logs". -/
def fetchWorkflowRunLogs (env : Env) : Event × Except RunErr String :=
  (.logFetchCall,
   match env.fetchLogsResp with
   | .ok logs =>
     .ok ("\n----GITHUB WORKFLOW RUN LOGS START----\n" ++ logs
       ++ "----GITHUB WORKFLOW RUN LOGS END----\n")
   | .error _ => .error .logsFailed)

/-- Method `GithubApiManager.downloadArtifactToPath`, at the interface level: fetch
the signed URL, stream-download and unzip under the destination; any failure
is caught and rethrown as "Error downloading or extracting file". -/
def downloadArtifactToPath (env : Env) (artifact : Artifact) (artifactsPath : String) :
    Event × Except RunErr Unit :=
  (.downloadArtifactCall artifact.id artifactsPath,
   match env.downloadArtifactResp artifact.id with
   | .ok _ => .ok ()
   | .error _ => .error (.artifactFailed artifact.id))

/-- Method `GithubApiManager.downloadArtifacts`: list the artifacts of the run (a
failure is rethrown as "Error while listing artifacts"); throw
"No artifacts found for the workflow run with name ..." when the list is
empty; otherwise download every artifact (all are started; the `Promise.all`
rejects when any of them fails — modelled as the first failure in list
order). -/
def downloadArtifacts (env : Env) (workflowRun : WorkflowRun) (artifactsPath : String) :
    List Event × Except RunErr Unit :=
  match env.listArtifactsResp with
  | .error _ => ([.listArtifactsCall], .error .listArtifactsFailed)
  | .ok artifactsList =>
    if artifactsList.length == 0 then
      ([.listArtifactsCall], .error (.noArtifactsFound workflowRun.name))
    else
      let downloads := artifactsList.map (fun a => downloadArtifactToPath env a artifactsPath)
      (.listArtifactsCall :: downloads.map (fun d => d.1),
       match downloads.findSome? (fun d =>
         match d.2 with
         | .error e => some e
         | .ok _ => none) with
       | some e => .error e
       | none => .ok ())

/-- The options of `GitHubActionsRunner.runAction`. -/
structure RunOpts where
  branch : String
  workflow : String
  rev : String
  artifactsPath : Option String
  commitTimeoutMs : Nat
  branchTimeoutMs : Nat
  workflowRunCreationTimeoutMs : Nat
  workflowRunCompletionTimeoutMs : Nat
  secrets : List String
  syncSecrets : Bool

/-- Method `GitHubActionsRunner.runAction`: wait for the commit, wait for the
branch, set/sync secrets, trigger the workflow, wait for the run to be
created (defensively checking for a null run), wait for it to complete
(again defensively checking for null), fetch the logs, check the conclusion
against the success sentinel, and finally download artifacts when a
destination path was provided.  Returns the event trace and the outcome. -/
def runAction (env : Env) (opts : RunOpts) : List Event × Except RunErr Unit :=
  match waitForCommit env.getCommitResp env.getCommitDur opts.commitTimeoutMs with
  | .failed e _ => ([.commitWait], .error (.api e))
  | .timedOut _ => ([.commitWait], .error (.commitTimeout opts.rev))
  | .found _ _ =>
  match waitForBranch env.getBranchResp env.getBranchDur opts.branchTimeoutMs with
  | .failed e _ => ([.commitWait, .branchWait], .error (.api e))
  | .timedOut _ => ([.commitWait, .branchWait], .error (.branchTimeout opts.branch))
  | .found _ _ =>
  match setSecrets env opts.secrets opts.syncSecrets with
  | (sevs, .error e) => ([.commitWait, .branchWait] ++ sevs, .error e)
  | (sevs, .ok _) =>
  match triggerWorkflow env with
  | (dev, .error e) => ([.commitWait, .branchWait] ++ sevs ++ [dev], .error e)
  | (dev, .ok customWorkflowRunId) =>
  match waitForWorkflowRunCreation env.listRunsCreationResp env.listRunsCreationDur
      customWorkflowRunId opts.workflowRunCreationTimeoutMs with
  | .failed e _ =>
    ([.commitWait, .branchWait] ++ sevs ++ [dev, .runCreationWait], .error (.api e))
  | .timedOut _ =>
    ([.commitWait, .branchWait] ++ sevs ++ [dev, .runCreationWait], .error .creationTimeout)
  | .found workflowRunInfo _ =>
  match workflowRunInfo with
  | none =>
    ([.commitWait, .branchWait] ++ sevs ++ [dev, .runCreationWait], .error .runNotFound)
  | some _ =>
  match waitForWorkflowRunCompletion env.listRunsCompletionResp env.listRunsCompletionDur
      customWorkflowRunId opts.workflowRunCompletionTimeoutMs with
  | .failed e _ =>
    ([.commitWait, .branchWait] ++ sevs ++ [dev, .runCreationWait, .runCompletionWait],
     .error (.api e))
  | .timedOut _ =>
    ([.commitWait, .branchWait] ++ sevs ++ [dev, .runCreationWait, .runCompletionWait],
     .error .completionTimeout)
  | .found workflowRun _ =>
  match workflowRun with
  | none =>
    ([.commitWait, .branchWait] ++ sevs ++ [dev, .runCreationWait, .runCompletionWait],
     .error .runNotFound)
  | some run =>
  match fetchWorkflowRunLogs env with
  | (lev, .error e) =>
    ([.commitWait, .branchWait] ++ sevs ++ [dev, .runCreationWait, .runCompletionWait, lev],
     .error e)
  | (lev, .ok _) =>
    let evs := [.commitWait, .branchWait] ++ sevs
      ++ [dev, .runCreationWait, .runCompletionWait, lev, .conclusionCheck run.conclusion]
    if !(run.conclusion == some WORKFLOW_RUN_SUCCESSFUL_CONCLUSION_STATUS) then
      (evs, .error (.workflowFailed run.conclusion))
    else
      match opts.artifactsPath with
      | none => (evs, .ok ())
      | some p =>
        match downloadArtifacts env run p with
        | (aevs, r) => (evs ++ aevs, r)

/-- The constant-zero duration function, for concrete scenarios. -/
def zeroDur : Nat → Nat := fun _ => 0

/-- The first run of the correlation example of the spec: name "foo-abc123-bar". -/
def exampleRunA : WorkflowRun :=
  { id := 1, name := some "foo-abc123-bar", status := some "completed",
    conclusion := some "success", html_url := "urlA" }

/-- The second run of the correlation example of the spec: name "foo-xyz999-bar". -/
def exampleRunB : WorkflowRun :=
  { id := 2, name := some "foo-xyz999-bar", status := some "completed",
    conclusion := some "success", html_url := "urlB" }

/-- A run whose status is the empty string: truthy-check fodder for the
completion waiter. -/
def emptyStatusRun : WorkflowRun :=
  { id := 3, name := some "run-id1-x", status := some "",
    conclusion := some "success", html_url := "urlC" }

/-- A run with a terminal status. -/
def doneRun : WorkflowRun :=
  { id := 4, name := some "run-id1-y", status := some "completed",
    conclusion := some "success", html_url := "urlD" }

/-- A listing environment that shows `emptyStatusRun` on the first poll and
`doneRun` afterwards. -/
def c3Runs : Nat → Except ApiErr (Option (List WorkflowRun)) :=
  fun i =>
    match i with
    | 0 => .ok (some [emptyStatusRun])
    | _ + 1 => .ok (some [doneRun])

/-- A run whose status is "toString": not an own key of the in-progress
object, but an inherited `Object.prototype` member, so the lookup is
truthy. -/
def protoStatusRun : WorkflowRun :=
  { id := 5, name := some "run-id1-p", status := some "toString",
    conclusion := some "success", html_url := "urlE" }

/-- A listing environment that shows `protoStatusRun` on the first poll and
`doneRun` afterwards. -/
def c3RunsProto : Nat → Except ApiErr (Option (List WorkflowRun)) :=
  fun i =>
    match i with
    | 0 => .ok (some [protoStatusRun])
    | _ + 1 => .ok (some [doneRun])

/-- A fully successful environment: every remote call succeeds on the first
attempt, the dispatched run is found at once and completes successfully. -/
def baseEnv : Env :=
  { getCommitResp := fun _ => .ok { status := 200 }
    getCommitDur := fun _ => 0
    getBranchResp := fun _ => .ok { status := 200 }
    getBranchDur := fun _ => 0
    listSecretsResp := .ok []
    deleteSecretResp := fun _ => .ok 204
    getPublicKeyResp := .ok ("publicKey", "keyId")
    encrypt := fun _ v => v
    setSecretResp := fun _ => .ok 201
    nanoidValue := "abc123"
    dispatchResp := .ok 204
    listRunsCreationResp := fun _ => .ok (some [exampleRunA])
    listRunsCreationDur := fun _ => 0
    listRunsCompletionResp := fun _ => .ok (some [exampleRunA])
    listRunsCompletionDur := fun _ => 0
    fetchLogsResp := .ok "log text"
    listArtifactsResp := .ok [{ id := 7, name := "example.txt" }]
    downloadArtifactResp := fun _ => .ok () }

/-- An environment in which the deletion of one existing secret and every upsert
throw an HTTP 500 error. -/
def failingSecretsEnv : Env :=
  { baseEnv with
    listSecretsResp := .ok ["C"]
    deleteSecretResp := fun _ => .error (.withStatus 500)
    setSecretResp := fun _ => .error (.withStatus 500) }

/-- The options of the end-to-end scenario of the spec: no secrets, no sync, no
artifacts path. -/
def happyOpts : RunOpts :=
  { branch := "main", workflow := "build.yml", rev := "abc1234",
    artifactsPath := none, commitTimeoutMs := 300000, branchTimeoutMs := 300000,
    workflowRunCreationTimeoutMs := 300000, workflowRunCompletionTimeoutMs := 300000,
    secrets := [], syncSecrets := false }

theorem pollUntil_timeout_aux {α : Type} (probe : Nat → Except ApiErr (Option α))
    (dur : Nat → Nat) (T D : Nat) (hnone : ∀ j, probe j = .ok none) (hD : ∀ j, dur j ≤ D) :
    ∀ k i e, T + 1 - e ≤ k → e ≤ T + POLLING_INTERVAL_MS →
    ∃ t, pollUntil probe dur T i e = .timedOut t ∧ T < t ∧ t ≤ T + POLLING_INTERVAL_MS + D := by
  have hP : POLLING_INTERVAL_MS = 5000 := rfl
  intro k
  induction k with
  | zero =>
    intro i e hk he
    have hlt : T < e + dur i := by omega
    rw [pollUntil.eq_def, hnone i]
    rw [dif_pos hlt]
    exact ⟨e + dur i, rfl, hlt, by have := hD i; omega⟩
  | succ k ih =>
    intro i e hk he
    rw [pollUntil.eq_def, hnone i]
    by_cases h : T < e + dur i
    · rw [dif_pos h]
      exact ⟨e + dur i, rfl, h, by have := hD i; omega⟩
    · rw [dif_neg h]
      exact ih (i + 1) (e + dur i + POLLING_INTERVAL_MS) (by omega) (by omega)

theorem pollUntil_success_aux {α : Type} (probe : Nat → Except ApiErr (Option α))
    (dur : Nat → Nat) (T : Nat) (v : α) :
    ∀ N i e, (∀ j, j < N → probe (i + j) = .ok none) → probe (i + N) = .ok (some v) →
    e + stepSum dur i N ≤ T →
    pollUntil probe dur T i e = .found v (e + stepSum dur i N + dur (i + N)) := by
  intro N
  induction N with
  | zero =>
    intro i e _ hN _
    rw [pollUntil.eq_def]
    rw [Nat.add_zero] at hN
    rw [hN]
    simp [stepSum]
  | succ n ih =>
    intro i e h0 hN hle
    have hi : probe i = .ok none := by
      have := h0 0 (Nat.succ_pos n)
      simpa using this
    rw [pollUntil.eq_def, hi]
    simp only [stepSum] at hle
    have hcond : ¬ T < e + dur i := by omega
    rw [dif_neg hcond]
    have hidx : i + 1 + n = i + (n + 1) := by omega
    have h0' : ∀ j, j < n → probe (i + 1 + j) = .ok none := by
      intro j hj
      have hidx2 : i + 1 + j = i + (j + 1) := by omega
      rw [hidx2]
      exact h0 (j + 1) (by omega)
    have hN' : probe (i + 1 + n) = .ok (some v) := by rw [hidx]; exact hN
    have hle' : e + dur i + POLLING_INTERVAL_MS + stepSum dur (i + 1) n ≤ T := by omega
    rw [ih (i + 1) (e + dur i + POLLING_INTERVAL_MS) h0' hN' hle']
    rw [hidx]
    simp only [stepSum]
    congr 1
    omega

theorem tryFetchCommit_bridge_aux (g : Nat → Except ApiErr HttpResponse) (d : Nat → Nat)
    (T : Nat) : ∀ k i e, T + 1 - e ≤ k →
    tryFetchCommit g d T i e = pollUntil (fun j => commitProbe (g j)) d T i e := by
  have hP : POLLING_INTERVAL_MS = 5000 := rfl
  intro k
  induction k with
  | zero =>
    intro i e hk
    rw [tryFetchCommit.eq_def, pollUntil.eq_def]
    simp only [commitProbe]
    cases h : hasCommit (g i) with
    | error e' => rfl
    | ok b =>
      cases b
      · have hlt : T < e + d i := by omega
        simp only [dif_pos hlt]
      · rfl
  | succ k ih =>
    intro i e hk
    rw [tryFetchCommit.eq_def, pollUntil.eq_def]
    simp only [commitProbe]
    cases h : hasCommit (g i) with
    | error e' => rfl
    | ok b =>
      cases b
      · by_cases hlt : T < e + d i
        · simp only [dif_pos hlt]
        · simp only [dif_neg hlt]
          exact ih (i + 1) (e + d i + POLLING_INTERVAL_MS) (by omega)
      · rfl

theorem tryFetchBranch_bridge_aux (g : Nat → Except ApiErr HttpResponse) (d : Nat → Nat)
    (T : Nat) : ∀ k i e, T + 1 - e ≤ k →
    tryFetchBranch g d T i e = pollUntil (fun j => branchProbe (g j)) d T i e := by
  have hP : POLLING_INTERVAL_MS = 5000 := rfl
  intro k
  induction k with
  | zero =>
    intro i e hk
    rw [tryFetchBranch.eq_def, pollUntil.eq_def]
    simp only [branchProbe]
    cases h : hasBranch (g i) with
    | error e' => rfl
    | ok b =>
      cases b
      · have hlt : T < e + d i := by omega
        simp only [dif_pos hlt]
      · rfl
  | succ k ih =>
    intro i e hk
    rw [tryFetchBranch.eq_def, pollUntil.eq_def]
    simp only [branchProbe]
    cases h : hasBranch (g i) with
    | error e' => rfl
    | ok b =>
      cases b
      · by_cases hlt : T < e + d i
        · simp only [dif_pos hlt]
        · simp only [dif_neg hlt]
          exact ih (i + 1) (e + d i + POLLING_INTERVAL_MS) (by omega)
      · rfl

theorem checkCreated_bridge_aux (L : Nat → Except ApiErr (Option (List WorkflowRun)))
    (d : Nat → Nat) (id : String) (T : Nat) : ∀ k i e, T + 1 - e ≤ k →
    checkIfWorkflowRunCreated L d id T i e
      = (pollUntil (fun j => creationProbe (L j) id) d T i e).mapFound some := by
  have hP : POLLING_INTERVAL_MS = 5000 := rfl
  intro k
  induction k with
  | zero =>
    intro i e hk
    rw [checkIfWorkflowRunCreated.eq_def, pollUntil.eq_def]
    simp only [creationProbe]
    cases h : L i with
    | error e' => rfl
    | ok resp =>
      cases hg : getWorkflowRun resp id with
      | some run => simp only [hg]; rfl
      | none =>
        simp only [hg]
        have hlt : T < e + d i := by omega
        simp only [dif_pos hlt]
        rfl
  | succ k ih =>
    intro i e hk
    rw [checkIfWorkflowRunCreated.eq_def, pollUntil.eq_def]
    simp only [creationProbe]
    cases h : L i with
    | error e' => rfl
    | ok resp =>
      cases hg : getWorkflowRun resp id with
      | some run => simp only [hg]; rfl
      | none =>
        simp only [hg]
        by_cases hlt : T < e + d i
        · simp only [dif_pos hlt]
          rfl
        · simp only [dif_neg hlt]
          exact ih (i + 1) (e + d i + POLLING_INTERVAL_MS) (by omega)

theorem checkCompleted_bridge_aux (L : Nat → Except ApiErr (Option (List WorkflowRun)))
    (d : Nat → Nat) (id : String) (T : Nat) : ∀ k i e, T + 1 - e ≤ k →
    checkIfWorkflowRunCompleted L d id T i e
      = (pollUntil (fun j => completionProbe (L j) id) d T i e).mapFound some := by
  have hP : POLLING_INTERVAL_MS = 5000 := rfl
  intro k
  induction k with
  | zero =>
    intro i e hk
    rw [checkIfWorkflowRunCompleted.eq_def, pollUntil.eq_def]
    simp only [completionProbe]
    cases h : L i with
    | error e' => rfl
    | ok resp =>
      cases hg : completionCheck (getWorkflowRun resp id) with
      | some run => simp only [hg]; rfl
      | none =>
        simp only [hg]
        have hlt : T < e + d i := by omega
        simp only [dif_pos hlt]
        rfl
  | succ k ih =>
    intro i e hk
    rw [checkIfWorkflowRunCompleted.eq_def, pollUntil.eq_def]
    simp only [completionProbe]
    cases h : L i with
    | error e' => rfl
    | ok resp =>
      cases hg : completionCheck (getWorkflowRun resp id) with
      | some run => simp only [hg]; rfl
      | none =>
        simp only [hg]
        by_cases hlt : T < e + d i
        · simp only [dif_pos hlt]
          rfl
        · simp only [dif_neg hlt]
          exact ih (i + 1) (e + d i + POLLING_INTERVAL_MS) (by omega)

/-- C4: for every timeout T and a probe that never succeeds, each polling wait
fails with a timeout no earlier than T and no later than T plus one poll
interval plus one probe duration; a probe that first succeeds at an attempt
starting within T makes the wait return that value without further waiting.
All four waiters are instances of the shared polling shape `pollUntil`, which
satisfies both bounds. -/
theorem polling_primitive_bounds :
    (∀ (α : Type) (probe : Nat → Except ApiErr (Option α)) (dur : Nat → Nat) (T D : Nat),
      (∀ j, probe j = .ok none) → (∀ j, dur j ≤ D) →
      ∃ t, pollUntil probe dur T 0 0 = .timedOut t ∧ T < t ∧ t ≤ T + POLLING_INTERVAL_MS + D)
    ∧ (∀ (α : Type) (probe : Nat → Except ApiErr (Option α)) (dur : Nat → Nat) (T : Nat)
        (v : α) (N : Nat), (∀ j, j < N → probe j = .ok none) → probe N = .ok (some v) →
        stepSum dur 0 N ≤ T →
        pollUntil probe dur T 0 0 = .found v (stepSum dur 0 N + dur N))
    ∧ (∀ g d T, waitForCommit g d T = pollUntil (fun j => commitProbe (g j)) d T 0 0)
    ∧ (∀ g d T, waitForBranch g d T = pollUntil (fun j => branchProbe (g j)) d T 0 0)
    ∧ (∀ L d id T, waitForWorkflowRunCreation L d id T
        = (pollUntil (fun j => creationProbe (L j) id) d T 0 0).mapFound some)
    ∧ (∀ L d id T, waitForWorkflowRunCompletion L d id T
        = (pollUntil (fun j => completionProbe (L j) id) d T 0 0).mapFound some) := by
  refine ⟨?_, ?_, ?_, ?_, ?_, ?_⟩
  · intro α probe dur T D hnone hD
    exact pollUntil_timeout_aux probe dur T D hnone hD (T + 1) 0 0 (by omega) (by omega)
  · intro α probe dur T v N h0 hN hle
    have h0' : ∀ j, j < N → probe (0 + j) = .ok none := by
      intro j hj
      rw [Nat.zero_add]
      exact h0 j hj
    have hN' : probe (0 + N) = .ok (some v) := by rw [Nat.zero_add]; exact hN
    have := pollUntil_success_aux probe dur T v N 0 0 h0' hN' (by omega)
    rw [this]
    rw [Nat.zero_add, Nat.zero_add]
  · intro g d T
    exact tryFetchCommit_bridge_aux g d T (T + 1) 0 0 (by omega)
  · intro g d T
    exact tryFetchBranch_bridge_aux g d T (T + 1) 0 0 (by omega)
  · intro L d id T
    exact checkCreated_bridge_aux L d id T (T + 1) 0 0 (by omega)
  · intro L d id T
    exact checkCompleted_bridge_aux L d id T (T + 1) 0 0 (by omega)

theorem polling_primitive_bounds_witness :
    ∃ t, pollUntil (fun _ => Except.ok (none : Option Unit)) (fun _ => 0) 7000 0 0
      = .timedOut t ∧ 7000 < t ∧ t ≤ 7000 + POLLING_INTERVAL_MS + 0 :=
  polling_primitive_bounds.1 Unit (fun _ => Except.ok none) (fun _ => 0) 7000 0
    (fun _ => rfl) (fun _ => Nat.le_refl 0)

/-- C8: `getWorkflowRun` returns the first run in listed order whose display
name contains the token as a substring; it returns none when no name matches
or when the listing response carries no runs; on the example of the spec it
returns the first entry. -/
theorem getWorkflowRun_first_match :
    (∀ (runs : List WorkflowRun) (token : String) (r : WorkflowRun),
      getWorkflowRun (some runs) token = some r →
      runNameMatches token r = true
      ∧ ∃ l1 l2, runs = l1 ++ r :: l2 ∧ ∀ x ∈ l1, runNameMatches token x = false)
    ∧ (∀ (runs : List WorkflowRun) (token : String),
      (∀ x ∈ runs, runNameMatches token x = false) → getWorkflowRun (some runs) token = none)
    ∧ (∀ token : String, getWorkflowRun none token = none)
    ∧ getWorkflowRun (some [exampleRunA, exampleRunB]) "abc123" = some exampleRunA := by
  refine ⟨?_, ?_, fun _ => rfl, by decide⟩
  · intro runs token r h
    simp only [getWorkflowRun] at h
    rw [List.find?_eq_some] at h
    obtain ⟨hp, as, bs, heq, hall⟩ := h
    refine ⟨hp, as, bs, heq, ?_⟩
    intro x hx
    have := hall x hx
    simpa using this
  · intro runs token h
    simp only [getWorkflowRun]
    rw [List.find?_eq_none]
    intro x hx
    simp [h x hx]

theorem getWorkflowRun_first_match_witness :
    runNameMatches "abc123" exampleRunA = true
    ∧ ∃ l1 l2, [exampleRunA, exampleRunB] = l1 ++ exampleRunA :: l2
        ∧ ∀ x ∈ l1, runNameMatches "abc123" x = false :=
  getWorkflowRun_first_match.1 [exampleRunA, exampleRunB] "abc123" exampleRunA (by decide)


theorem splitChars_of_not_mem (c : Char) :
    ∀ (l acc : List Char), c ∉ l → splitChars c l acc = [acc.reverse ++ l] := by
  intro l
  induction l with
  | nil => intro acc _; simp [splitChars]
  | cons x xs ih =>
    intro acc h
    have hx : ¬ (x == c) = true := by
      simp only [beq_iff_eq]
      rintro rfl
      exact h (List.mem_cons_self _ _)
    simp only [splitChars]
    rw [if_neg hx]
    rw [ih (x :: acc) (fun hm => h (List.mem_cons_of_mem _ hm))]
    simp

theorem splitChars_sep (c : Char) :
    ∀ (l r acc : List Char), c ∉ l →
    splitChars c (l ++ c :: r) acc = (acc.reverse ++ l) :: splitChars c r [] := by
  intro l
  induction l with
  | nil =>
    intro r acc _
    simp [splitChars]
  | cons x xs ih =>
    intro r acc h
    have hx : ¬ (x == c) = true := by
      simp only [beq_iff_eq]
      rintro rfl
      exact h (List.mem_cons_self _ _)
    simp only [List.cons_append, splitChars]
    rw [if_neg hx]
    simp only [List.append_eq]
    rw [ih r (x :: acc) (fun hm => h (List.mem_cons_of_mem _ hm))]
    simp

/-- C2 (amended): each secret entry is parsed by splitting on EVERY `=`; the
key is the text before the first `=` and the value is the text between the
first and second `=` (text after a second `=` is dropped); entries with a
missing key or missing value, or without any `=`, are skipped with a warning
and never cause `setSecrets` to fail. -/
theorem setSecrets_entry_parsing :
    (∀ kl vl : List Char, kl ≠ [] → vl ≠ [] → '=' ∉ kl → '=' ∉ vl →
      parseSecret (kl ++ '=' :: vl).asString = .pair kl.asString vl.asString
      ∧ ∀ rest : List Char,
          parseSecret (kl ++ '=' :: vl ++ '=' :: rest).asString = .pair kl.asString vl.asString)
    ∧ (∀ s : String, ¬ s.toList.contains '=' = true → parseSecret s = .skippedInvalidFormat)
    ∧ (∀ vl : List Char, parseSecret ('=' :: vl).asString = .skippedBadPair)
    ∧ (∀ kl : List Char, kl ≠ [] → '=' ∉ kl →
        parseSecret (kl ++ ['=']).asString = .skippedBadPair)
    ∧ (∀ (env : Env) (pk pkid s : String),
        parseSecret s = .skippedInvalidFormat ∨ parseSecret s = .skippedBadPair →
        (setSecretAttempt env pk pkid s).1 = none)
    ∧ (∀ (env : Env) (secrets : List String) (pk : String × String),
        env.getPublicKeyResp = .ok pk →
        ∃ outs, (setSecrets env secrets false).2 = .ok outs) := by
  have hasStringToList : ∀ l : List Char, (List.asString l).toList = l := fun _ => rfl
  refine ⟨?_, ?_, ?_, ?_, ?_, ?_⟩
  · intro kl vl hk hv hkm hvm
    have hmem : ('=' : Char) ∈ kl ++ '=' :: vl := by simp
    constructor
    · simp only [parseSecret, hasStringToList]
      rw [splitChars_sep '=' kl vl [] hkm]
      rw [splitChars_of_not_mem '=' vl [] hvm]
      simp [hk, hv, List.elem_iff.mpr hmem]
    · intro rest
      have hmem2 : ('=' : Char) ∈ kl ++ '=' :: (vl ++ '=' :: rest) := by simp
      simp only [parseSecret, hasStringToList]
      rw [show kl ++ '=' :: vl ++ '=' :: rest = kl ++ '=' :: (vl ++ '=' :: rest) by simp]
      rw [splitChars_sep '=' kl (vl ++ '=' :: rest) [] hkm]
      rw [splitChars_sep '=' vl rest [] hvm]
      simp [hk, hv, List.elem_iff.mpr hmem2]
  · intro s h
    have hc : s.toList.contains '=' = false := by
      revert h
      cases s.toList.contains '=' <;> simp
    have hcond : (s.toList.isEmpty || !s.toList.contains '=') = true := by
      rw [hc]; simp
    simp only [parseSecret]
    rw [if_pos hcond]
  · intro vl
    have hmem : ('=' : Char) ∈ '=' :: vl := List.mem_cons_self _ _
    simp only [parseSecret, hasStringToList]
    have : splitChars '=' ('=' :: vl) [] = [] :: splitChars '=' vl [] := by
      have := splitChars_sep '=' [] vl [] (by simp)
      simpa using this
    rw [this]
    simp [List.elem_iff.mpr hmem]
  · intro kl hk hkm
    have hmem : ('=' : Char) ∈ kl ++ ['='] := by simp
    simp only [parseSecret, hasStringToList]
    rw [show kl ++ ['='] = kl ++ '=' :: ([] : List Char) by simp]
    rw [splitChars_sep '=' kl [] [] hkm]
    simp [hk, List.elem_iff.mpr hmem, splitChars]
  · intro env pk pkid s h
    rcases h with h | h <;> simp [setSecretAttempt, h]
  · intro env secrets pk hpk
    simp only [setSecrets]
    by_cases hlen : secrets.length == 0
    · simp [hlen]
    · simp only [Bool.not_eq_true] at hlen
      simp [hlen, hpk]

theorem setSecrets_entry_parsing_witness :
    parseSecret (['K'] ++ '=' :: ['1']).asString = .pair ['K'].asString ['1'].asString :=
  (setSecrets_entry_parsing.1 ['K'] ['1'] (by decide) (by decide) (by decide) (by decide)).1

/-- C2 counterexample: on the entry "K=a=b" the claim says the stored value
is the entire remainder "a=b" after the first `=` (as `specFirstEqParse`,
modelled from the spec, produces), but the source's `parseSecret` keeps only
the second split component "a". -/
theorem setSecrets_split_counterexample :
    parseSecret "K=a=b" = .pair "K" "a"
    ∧ specFirstEqParse "K=a=b" = .pair "K" "a=b"
    ∧ SecretParse.pair "K" "a" ≠ SecretParse.pair "K" "a=b" :=
  ⟨by decide, by decide, by decide⟩


/-- C3 (amended): on each poll of the run-completion waiter, a found run
whose status is one of the five in-progress values is treated as non-terminal
and polling continues; so is a found run whose status is one of the member
names every object literal inherits from `Object.prototype` (constructor,
hasOwnProperty, isPrototypeOf, propertyIsEnumerable, toLocaleString,
toString, valueOf, `__proto__` and the four legacy getter/setter-management
names), because the object lookup walks the prototype chain and finds a
truthy inherited member; a found run whose status is any other NON-EMPTY
value is treated as terminal and returned immediately; a found run with a
missing or empty status is treated as non-terminal and polling continues;
and a run lookup returning absent on a later poll keeps polling (subject to
the timeout) rather than failing. -/
theorem completion_waiter_policy :
    (∀ L d id T i e resp run st, L i = .ok resp → getWorkflowRun resp id = some run →
      run.status = some st → st ≠ "" → IN_PROGRESS_STATUSES.contains st = false →
      OBJECT_PROTOTYPE_MEMBERS.contains st = false →
      checkIfWorkflowRunCompleted L d id T i e = .found (some run) (e + d i))
    ∧ (∀ L d id T i e resp run st, L i = .ok resp → getWorkflowRun resp id = some run →
      run.status = some st → IN_PROGRESS_STATUSES.contains st = true → ¬ T < e + d i →
      checkIfWorkflowRunCompleted L d id T i e
        = checkIfWorkflowRunCompleted L d id T (i + 1) (e + d i + POLLING_INTERVAL_MS))
    ∧ (∀ L d id T i e resp run st, L i = .ok resp → getWorkflowRun resp id = some run →
      run.status = some st → OBJECT_PROTOTYPE_MEMBERS.contains st = true → ¬ T < e + d i →
      checkIfWorkflowRunCompleted L d id T i e
        = checkIfWorkflowRunCompleted L d id T (i + 1) (e + d i + POLLING_INTERVAL_MS))
    ∧ (∀ L d id T i e resp run, L i = .ok resp → getWorkflowRun resp id = some run →
      (run.status = none ∨ run.status = some "") → ¬ T < e + d i →
      checkIfWorkflowRunCompleted L d id T i e
        = checkIfWorkflowRunCompleted L d id T (i + 1) (e + d i + POLLING_INTERVAL_MS))
    ∧ (∀ L d id T i e resp, L i = .ok resp → getWorkflowRun resp id = none → ¬ T < e + d i →
      checkIfWorkflowRunCompleted L d id T i e
        = checkIfWorkflowRunCompleted L d id T (i + 1) (e + d i + POLLING_INTERVAL_MS)) := by
  refine ⟨?_, ?_, ?_, ?_, ?_⟩
  · intro L d id T i e resp run st hL hg hst hne hcont hproto
    have hb : (st == "") = false := by simp [hne]
    have hcc : completionCheck (getWorkflowRun resp id) = some run := by
      rw [hg]
      simp only [completionCheck, statusTruthy, hst, hb, Option.getD_some,
        inProgressLookupTruthy, hcont, hproto]
      simp
    rw [checkIfWorkflowRunCompleted.eq_def, hL]
    simp only [hcc]
  · intro L d id T i e resp run st hL hg hst hcont hT
    have hb : (st == "") = false := by
      have hne : st ≠ "" := by
        intro hst0
        rw [hst0] at hcont
        exact absurd hcont (by decide)
      simp [hne]
    have hcc : completionCheck (getWorkflowRun resp id) = none := by
      rw [hg]
      simp only [completionCheck, statusTruthy, hst, hb, Option.getD_some,
        inProgressLookupTruthy, hcont]
      simp
    rw [checkIfWorkflowRunCompleted.eq_def, hL]
    simp only [hcc]
    rw [dif_neg hT]
  · intro L d id T i e resp run st hL hg hst hcont hT
    have hb : (st == "") = false := by
      have hne : st ≠ "" := by
        intro hst0
        rw [hst0] at hcont
        exact absurd hcont (by decide)
      simp [hne]
    have hcc : completionCheck (getWorkflowRun resp id) = none := by
      rw [hg]
      simp only [completionCheck, statusTruthy, hst, hb, Option.getD_some,
        inProgressLookupTruthy, hcont]
      simp
    rw [checkIfWorkflowRunCompleted.eq_def, hL]
    simp only [hcc]
    rw [dif_neg hT]
  · intro L d id T i e resp run hL hg hfalsy hT
    have hcc : completionCheck (getWorkflowRun resp id) = none := by
      rw [hg]
      rcases hfalsy with h0 | h0 <;> simp [completionCheck, statusTruthy, h0]
    rw [checkIfWorkflowRunCompleted.eq_def, hL]
    simp only [hcc]
    rw [dif_neg hT]
  · intro L d id T i e resp hL hg hT
    have hcc : completionCheck (getWorkflowRun resp id) = none := by
      rw [hg]
      rfl
    rw [checkIfWorkflowRunCompleted.eq_def, hL]
    simp only [hcc]
    rw [dif_neg hT]

theorem completion_waiter_policy_witness :
    checkIfWorkflowRunCompleted (fun _ => .ok (some [doneRun])) zeroDur "id1" 30000 0 0
      = .found (some doneRun) (0 + zeroDur 0) :=
  completion_waiter_policy.1 (fun _ => .ok (some [doneRun])) zeroDur "id1" 30000 0 0
    (some [doneRun]) doneRun "completed" rfl (by decide) rfl (by decide) (by decide)
    (by decide)

/-- C3 counterexample: two runs whose statuses are NOT among the five
in-progress values are nevertheless NOT returned immediately as terminal.
`emptyStatusRun` has status "", which fails the truthiness guard; and
`protoStatusRun` has the non-empty status "toString", for which the object
lookup finds a truthy member inherited from `Object.prototype`.  In both
cases the waiter keeps polling past the run visible on the first poll and
returns only the later `doneRun`. -/
theorem completion_empty_status_counterexample :
    (getWorkflowRun (some [emptyStatusRun]) "id1" = some emptyStatusRun
    ∧ emptyStatusRun.status = some ""
    ∧ IN_PROGRESS_STATUSES.contains "" = false
    ∧ waitForWorkflowRunCompletion c3Runs zeroDur "id1" 30000 = .found (some doneRun) 5000
    ∧ doneRun ≠ emptyStatusRun)
    ∧ (getWorkflowRun (some [protoStatusRun]) "id1" = some protoStatusRun
    ∧ protoStatusRun.status = some "toString"
    ∧ "toString" ≠ ""
    ∧ IN_PROGRESS_STATUSES.contains "toString" = false
    ∧ waitForWorkflowRunCompletion c3RunsProto zeroDur "id1" 30000
        = .found (some doneRun) 5000
    ∧ doneRun ≠ protoStatusRun) := by
  have e1 : completionCheck (getWorkflowRun (some [doneRun]) "id1") = some doneRun := by decide
  constructor
  · refine ⟨by decide, rfl, by decide, ?_, by decide⟩
    have e0 : completionCheck (getWorkflowRun (some [emptyStatusRun]) "id1") = none := by decide
    unfold waitForWorkflowRunCompletion
    rw [checkIfWorkflowRunCompleted.eq_def]
    have hc0 : c3Runs 0 = .ok (some [emptyStatusRun]) := rfl
    rw [hc0]
    simp only [e0, zeroDur]
    rw [dif_neg (by norm_num)]
    rw [checkIfWorkflowRunCompleted.eq_def]
    have hc1 : c3Runs 1 = .ok (some [doneRun]) := rfl
    rw [hc1]
    simp only [e1, zeroDur, POLLING_INTERVAL_MS]
  · refine ⟨by decide, rfl, by decide, by decide, ?_, by decide⟩
    have p0 : completionCheck (getWorkflowRun (some [protoStatusRun]) "id1") = none := by decide
    unfold waitForWorkflowRunCompletion
    rw [checkIfWorkflowRunCompleted.eq_def]
    have hp0 : c3RunsProto 0 = .ok (some [protoStatusRun]) := rfl
    rw [hp0]
    simp only [p0, zeroDur]
    rw [dif_neg (by norm_num)]
    rw [checkIfWorkflowRunCompleted.eq_def]
    have hp1 : c3RunsProto 1 = .ok (some [doneRun]) := rfl
    rw [hp1]
    simp only [e1, zeroDur, POLLING_INTERVAL_MS]

/-- C5: for the commit and branch existence checks, an HTTP 200 response
means "exists" and ends the wait at once; a thrown 404 means "not yet" and is
retried; a thrown 422 is likewise retried for the commit check only (for the
branch check it is fatal); and any other error status or a transport error is
rethrown, aborting the wait immediately on the attempt where it occurs, for
every timeout value. -/
theorem existence_lookup_policy :
    (∀ r : HttpResponse, hasCommit (.ok r) = .ok (r.status == 200)
      ∧ hasBranch (.ok r) = .ok (r.status == 200))
    ∧ (hasCommit (.error (.withStatus 404)) = .ok false
      ∧ hasCommit (.error (.withStatus 422)) = .ok false
      ∧ hasBranch (.error (.withStatus 404)) = .ok false)
    ∧ (∀ s, s ≠ 404 → s ≠ 422 → hasCommit (.error (.withStatus s)) = .error (.withStatus s))
    ∧ (∀ s, s ≠ 404 → hasBranch (.error (.withStatus s)) = .error (.withStatus s))
    ∧ (∀ m, hasCommit (.error (.noStatus m)) = .error (.noStatus m)
      ∧ hasBranch (.error (.noStatus m)) = .error (.noStatus m))
    ∧ (∀ g d T, g 0 = .ok { status := 200 } → waitForCommit g d T = .found () (d 0))
    ∧ (∀ g d T i e, hasCommit (g i) = .ok false → ¬ T < e + d i →
        tryFetchCommit g d T i e = tryFetchCommit g d T (i + 1) (e + d i + POLLING_INTERVAL_MS))
    ∧ (∀ g d T s, s ≠ 404 → s ≠ 422 → g 0 = .error (.withStatus s) →
        waitForCommit g d T = .failed (.withStatus s) (d 0))
    ∧ (∀ g d T m, g 0 = .error (.noStatus m) →
        waitForCommit g d T = .failed (.noStatus m) (d 0))
    ∧ (∀ g d T s, s ≠ 404 → g 0 = .error (.withStatus s) →
        waitForBranch g d T = .failed (.withStatus s) (d 0)) := by
  have hcommitErr : ∀ s, s ≠ 404 → s ≠ 422 →
      hasCommit (.error (.withStatus s)) = .error (.withStatus s) := by
    intro s h1 h2
    simp only [hasCommit]
    rw [if_neg]
    simp [h1, h2]
  have hbranchErr : ∀ s, s ≠ 404 →
      hasBranch (.error (.withStatus s)) = .error (.withStatus s) := by
    intro s h1
    simp only [hasBranch]
    rw [if_neg]
    simp [h1]
  refine ⟨fun r => ⟨rfl, rfl⟩, ⟨rfl, rfl, rfl⟩, hcommitErr, hbranchErr,
    fun m => ⟨rfl, rfl⟩, ?_, ?_, ?_, ?_, ?_⟩
  · intro g d T hg
    unfold waitForCommit
    rw [tryFetchCommit.eq_def, hg]
    have h200 : hasCommit (.ok { status := 200 }) = .ok true := rfl
    rw [h200]
    simp
  · intro g d T i e hfalse hT
    rw [tryFetchCommit.eq_def, hfalse]
    rw [dif_neg hT]
  · intro g d T s h1 h2 hg
    unfold waitForCommit
    rw [tryFetchCommit.eq_def, hg, hcommitErr s h1 h2]
    simp
  · intro g d T m hg
    unfold waitForCommit
    rw [tryFetchCommit.eq_def, hg]
    have hm : hasCommit (.error (.noStatus m)) = .error (.noStatus m) := rfl
    rw [hm]
    simp
  · intro g d T s h1 hg
    unfold waitForBranch
    rw [tryFetchBranch.eq_def, hg, hbranchErr s h1]
    simp

theorem existence_lookup_policy_witness :
    waitForCommit (fun _ => .error (.withStatus 500)) zeroDur 300000
      = .failed (.withStatus 500) (zeroDur 0) :=
  existence_lookup_policy.2.2.2.2.2.2.2.1 (fun _ => .error (.withStatus 500)) zeroDur 300000
    500 (by decide) (by decide) rfl


/-- C1 (code evidence): with an environment in which the upsert of secret "A"
and the deletion of existing secret "C" both throw HTTP 500, `setSecrets`
still resolves successfully — the per-item callbacks catch and merely log the
failures, so the `Promise.all` never rejects and the aggregate
"Failed to set/remove one or more secrets" throws are unreachable. -/
theorem setSecrets_swallows_per_item_failures :
    setSecrets failingSecretsEnv ["A=1"] false
      = ([.getPublicKeyCall, .setSecretCall "A"], .ok [.errorLogged "A"])
    ∧ setSecrets failingSecretsEnv [] true
      = ([.listSecretsCall, .deleteSecretCall "C"], .ok [])
    ∧ syncSecrets failingSecretsEnv []
      = ([.listSecretsCall, .deleteSecretCall "C"], .ok [.errorLogged "C"]) :=
  ⟨rfl, rfl, rfl⟩

/-- C9: when the artifact listing of a run is empty, `downloadArtifacts`
fails with the no-artifacts-found error instead of silently succeeding; when
it is non-empty, a download is performed for every listed artifact into the
destination path, and if all of them succeed the operation succeeds. -/
theorem downloadArtifacts_policy :
    (∀ (env : Env) (run : WorkflowRun) (p : String), env.listArtifactsResp = .ok [] →
      downloadArtifacts env run p = ([.listArtifactsCall], .error (.noArtifactsFound run.name)))
    ∧ (∀ (env : Env) (run : WorkflowRun) (p : String) (arts : List Artifact),
        env.listArtifactsResp = .ok arts → arts ≠ [] →
        (downloadArtifacts env run p).1
          = .listArtifactsCall :: arts.map (fun a => .downloadArtifactCall a.id p)
        ∧ ((∀ a ∈ arts, env.downloadArtifactResp a.id = .ok ()) →
            (downloadArtifacts env run p).2 = .ok ())) := by
  constructor
  · intro env run p h
    simp [downloadArtifacts, h]
  · intro env run p arts h hne
    have hlen : (arts.length == 0) = false := by
      simp [List.length_eq_zero, hne]
    constructor
    · simp only [downloadArtifacts, h, hlen]
      simp [downloadArtifactToPath, List.map_map, Function.comp]
    · intro hall
      simp only [downloadArtifacts, h, hlen]
      have hnone : (arts.map (fun a => downloadArtifactToPath env a p)).findSome?
          (fun d => match d.2 with | .error e => some e | .ok _ => none) = none := by
        rw [List.findSome?_eq_none_iff]
        intro d hd
        rcases List.mem_map.mp hd with ⟨a, ha, rfl⟩
        simp [downloadArtifactToPath, hall a ha]
      simp [hnone]

theorem downloadArtifacts_policy_witness :
    downloadArtifacts { baseEnv with listArtifactsResp := .ok [] } doneRun "dest"
      = ([.listArtifactsCall], .error (.noArtifactsFound doneRun.name)) :=
  downloadArtifacts_policy.1 { baseEnv with listArtifactsResp := .ok [] } doneRun "dest" rfl

theorem isPrefixOfAppend_aux : ∀ (l r : List Char), l.isPrefixOf (l ++ r) = true := by
  intro l r
  induction l with
  | nil => simp
  | cons x xs ih => simp [List.isPrefixOf, ih]

theorem jsIncludes_append_aux (a b c : String) : jsIncludes (a ++ b ++ c) b = true := by
  have hdata : (a ++ b ++ c).toList = a.toList ++ (b.toList ++ c.toList) := by
    simp [String.toList, List.append_assoc]
  simp only [jsIncludes, hdata]
  rw [List.any_eq_true]
  refine ⟨a.toList.length, ?_, ?_⟩
  · rw [List.mem_range]
    simp [List.length_append]
    omega
  · rw [List.drop_left]
    exact isPrefixOfAppend_aux b.toList c.toList

theorem setSecrets_error_shape (env : Env) (s : List String) (b : Bool) :
    ∀ e, (setSecrets env s b).2 = .error e → e = .publicKeyFailed ∨ ∃ a, e = .api a := by
  intro e h
  have core : ∀ evs : List Event,
      ((if s.length == 0 then (evs, Except.ok ([] : List SetOutcome))
        else
          match env.getPublicKeyResp with
          | .error _ => (evs ++ [.getPublicKeyCall], .error .publicKeyFailed)
          | .ok (publicKeyValue, publicKeyId) =>
            let attempts := s.map (setSecretAttempt env publicKeyValue publicKeyId)
            (evs ++ [.getPublicKeyCall] ++ attempts.filterMap (fun a => a.1),
             Except.ok (attempts.map (fun a => a.2)))) :
        List Event × Except RunErr (List SetOutcome)).2 = .error e →
      e = .publicKeyFailed ∨ ∃ a, e = .api a := by
    intro evs hcore
    by_cases hl : (s.length == 0) = true
    · rw [if_pos hl] at hcore
      exact absurd hcore (by simp)
    · rw [if_neg hl] at hcore
      cases hpk : env.getPublicKeyResp with
      | error a =>
        rw [hpk] at hcore
        simp at hcore
        left
        exact hcore.symm
      | ok pk =>
        rw [hpk] at hcore
        exact absurd hcore (by simp)
  cases b with
  | false =>
    simp only [setSecrets, Bool.false_eq_true, if_false] at h
    exact core [] h
  | true =>
    simp only [setSecrets, if_true] at h
    cases hls : env.listSecretsResp with
    | error a =>
      simp only [syncSecrets, hls] at h
      simp at h
      right
      exact ⟨a, h.symm⟩
    | ok existing =>
      simp only [syncSecrets, hls] at h
      exact core _ h

theorem triggerWorkflow_error_shape (env : Env) :
    ∀ e, (triggerWorkflow env).2 = .error e → (∃ a, e = .api a) ∨ ∃ s, e = .dispatchFailed s := by
  intro e h
  simp only [triggerWorkflow] at h
  cases hd : env.dispatchResp with
  | error a =>
    rw [hd] at h
    simp at h
    exact .inl ⟨a, h.symm⟩
  | ok st =>
    simp only [hd] at h
    by_cases h204 : (st == 204) = true
    · rw [if_pos h204] at h
      exact absurd h (by simp)
    · rw [if_neg h204] at h
      simp at h
      exact .inr ⟨st, h.symm⟩

theorem fetchLogs_error_shape (env : Env) :
    ∀ e, (fetchWorkflowRunLogs env).2 = .error e → e = .logsFailed := by
  intro e h
  simp only [fetchWorkflowRunLogs] at h
  cases hl : env.fetchLogsResp with
  | error a =>
    rw [hl] at h
    simp at h
    exact h.symm
  | ok logs =>
    rw [hl] at h
    exact absurd h (by simp)

theorem downloadArtifacts_error_shape (env : Env) (run : WorkflowRun) (p : String) :
    ∀ e, (downloadArtifacts env run p).2 = .error e →
    e = .listArtifactsFailed ∨ (∃ n, e = .noArtifactsFound n) ∨ ∃ a, e = .artifactFailed a := by
  intro e h
  simp only [downloadArtifacts] at h
  cases hl : env.listArtifactsResp with
  | error a =>
    rw [hl] at h
    simp at h
    exact .inl h.symm
  | ok arts =>
    simp only [hl] at h
    by_cases hlen : (arts.length == 0) = true
    · rw [if_pos hlen] at h
      simp at h
      exact .inr (.inl ⟨run.name, h.symm⟩)
    · rw [if_neg hlen] at h
      simp only [] at h
      cases hfs : (arts.map (fun a => downloadArtifactToPath env a p)).findSome?
          (fun d => match d.2 with | .error e => some e | .ok _ => none) with
      | none =>
        rw [hfs] at h
        exact absurd h (by simp)
      | some e0 =>
        rw [hfs] at h
        simp at h
        rcases List.exists_of_findSome?_eq_some hfs with ⟨d, hd, hde⟩
        rcases List.mem_map.mp hd with ⟨a, _, rfl⟩
        refine .inr (.inr ⟨a.id, ?_⟩)
        revert hde
        simp only [downloadArtifactToPath]
        cases env.downloadArtifactResp a.id with
        | error _ =>
          intro hde
          simp at hde
          rw [← h, ← hde]
        | ok _ =>
          intro hde
          exact absurd hde (by simp)


theorem checkCreated_found_some_aux (L : Nat → Except ApiErr (Option (List WorkflowRun)))
    (d : Nat → Nat) (id : String) (T : Nat) : ∀ k i e, T + 1 - e ≤ k →
    ∀ v t, checkIfWorkflowRunCreated L d id T i e = .found v t → ∃ r, v = some r := by
  have hP : POLLING_INTERVAL_MS = 5000 := rfl
  intro k
  induction k with
  | zero =>
    intro i e hk v t h
    rw [checkIfWorkflowRunCreated.eq_def] at h
    cases hL : L i with
    | error e' =>
      simp only [hL] at h
      exact absurd h (by simp)
    | ok resp =>
      simp only [hL] at h
      cases hg : getWorkflowRun resp id with
      | some run =>
        simp only [hg] at h
        simp at h
        exact ⟨run, h.1.symm⟩
      | none =>
        simp only [hg] at h
        have hlt : T < e + d i := by omega
        rw [dif_pos hlt] at h
        exact absurd h (by simp)
  | succ k ih =>
    intro i e hk v t h
    rw [checkIfWorkflowRunCreated.eq_def] at h
    cases hL : L i with
    | error e' =>
      simp only [hL] at h
      exact absurd h (by simp)
    | ok resp =>
      simp only [hL] at h
      cases hg : getWorkflowRun resp id with
      | some run =>
        simp only [hg] at h
        simp at h
        exact ⟨run, h.1.symm⟩
      | none =>
        simp only [hg] at h
        by_cases hlt : T < e + d i
        · rw [dif_pos hlt] at h
          exact absurd h (by simp)
        · rw [dif_neg hlt] at h
          exact ih (i + 1) (e + d i + POLLING_INTERVAL_MS) (by omega) v t h

theorem checkCompleted_found_some_aux (L : Nat → Except ApiErr (Option (List WorkflowRun)))
    (d : Nat → Nat) (id : String) (T : Nat) : ∀ k i e, T + 1 - e ≤ k →
    ∀ v t, checkIfWorkflowRunCompleted L d id T i e = .found v t → ∃ r, v = some r := by
  have hP : POLLING_INTERVAL_MS = 5000 := rfl
  intro k
  induction k with
  | zero =>
    intro i e hk v t h
    rw [checkIfWorkflowRunCompleted.eq_def] at h
    cases hL : L i with
    | error e' =>
      simp only [hL] at h
      exact absurd h (by simp)
    | ok resp =>
      simp only [hL] at h
      cases hg : completionCheck (getWorkflowRun resp id) with
      | some run =>
        simp only [hg] at h
        simp at h
        exact ⟨run, h.1.symm⟩
      | none =>
        simp only [hg] at h
        have hlt : T < e + d i := by omega
        rw [dif_pos hlt] at h
        exact absurd h (by simp)
  | succ k ih =>
    intro i e hk v t h
    rw [checkIfWorkflowRunCompleted.eq_def] at h
    cases hL : L i with
    | error e' =>
      simp only [hL] at h
      exact absurd h (by simp)
    | ok resp =>
      simp only [hL] at h
      cases hg : completionCheck (getWorkflowRun resp id) with
      | some run =>
        simp only [hg] at h
        simp at h
        exact ⟨run, h.1.symm⟩
      | none =>
        simp only [hg] at h
        by_cases hlt : T < e + d i
        · rw [dif_pos hlt] at h
          exact absurd h (by simp)
        · rw [dif_neg hlt] at h
          exact ih (i + 1) (e + d i + POLLING_INTERVAL_MS) (by omega) v t h

/-- C10: the run-creation and run-completion waiters never resolve with a
null run — whenever they return a found value it is a present workflow run —
and consequently `runAction` can never surface its defensive
"Workflow run not found." error. -/
theorem waiters_never_resolve_null :
    (∀ L d id T v t, waitForWorkflowRunCreation L d id T = .found v t → v ≠ none)
    ∧ (∀ L d id T v t, waitForWorkflowRunCompletion L d id T = .found v t → v ≠ none)
    ∧ (∀ env opts, (runAction env opts).2 ≠ .error .runNotFound) := by
  refine ⟨?_, ?_, ?_⟩
  · intro L d id T v t h
    unfold waitForWorkflowRunCreation at h
    rcases checkCreated_found_some_aux L d id T (T + 1) 0 0 (by omega) v t h with ⟨r, rfl⟩
    simp
  · intro L d id T v t h
    unfold waitForWorkflowRunCompletion at h
    rcases checkCompleted_found_some_aux L d id T (T + 1) 0 0 (by omega) v t h with ⟨r, rfl⟩
    simp
  · intro env opts h
    unfold runAction at h
    cases hc : waitForCommit env.getCommitResp env.getCommitDur opts.commitTimeoutMs with
    | failed e' t => simp only [hc] at h; simp at h
    | timedOut t => simp only [hc] at h; simp at h
    | found u t =>
    simp only [hc] at h
    cases hb : waitForBranch env.getBranchResp env.getBranchDur opts.branchTimeoutMs with
    | failed e' t2 => simp only [hb] at h; simp at h
    | timedOut t2 => simp only [hb] at h; simp at h
    | found u2 t2 =>
    simp only [hb] at h
    cases hs : setSecrets env opts.secrets opts.syncSecrets with
    | mk sevs r =>
    cases r with
    | error e' =>
      simp only [hs] at h
      simp at h
      rcases setSecrets_error_shape env opts.secrets opts.syncSecrets e' (by rw [hs]) with
        h1 | ⟨a, h1⟩ <;> (rw [h] at h1; exact absurd h1 (by simp))
    | ok outs =>
    simp only [hs] at h
    cases ht : triggerWorkflow env with
    | mk dev r2 =>
    cases r2 with
    | error e' =>
      simp only [ht] at h
      simp at h
      rcases triggerWorkflow_error_shape env e' (by rw [ht]) with ⟨a, h1⟩ | ⟨s2, h1⟩ <;>
        (rw [h] at h1; exact absurd h1 (by simp))
    | ok customId =>
    simp only [ht] at h
    cases hcr : waitForWorkflowRunCreation env.listRunsCreationResp env.listRunsCreationDur
        customId opts.workflowRunCreationTimeoutMs with
    | failed e' t3 => simp only [hcr] at h; simp at h
    | timedOut t3 => simp only [hcr] at h; simp at h
    | found v3 t3 =>
    simp only [hcr] at h
    cases v3 with
    | none =>
      unfold waitForWorkflowRunCreation at hcr
      rcases checkCreated_found_some_aux _ _ _ _ (opts.workflowRunCreationTimeoutMs + 1) 0 0
        (by omega) _ _ hcr with ⟨r, hr⟩
      exact absurd hr (by simp)
    | some runA =>
    cases hcp : waitForWorkflowRunCompletion env.listRunsCompletionResp env.listRunsCompletionDur
        customId opts.workflowRunCompletionTimeoutMs with
    | failed e' t4 => simp only [hcp] at h; simp at h
    | timedOut t4 => simp only [hcp] at h; simp at h
    | found v4 t4 =>
    simp only [hcp] at h
    cases v4 with
    | none =>
      unfold waitForWorkflowRunCompletion at hcp
      rcases checkCompleted_found_some_aux _ _ _ _ (opts.workflowRunCompletionTimeoutMs + 1) 0 0
        (by omega) _ _ hcp with ⟨r, hr⟩
      exact absurd hr (by simp)
    | some run =>
    cases hlog : fetchWorkflowRunLogs env with
    | mk lev r3 =>
    cases r3 with
    | error e' =>
      simp only [hlog] at h
      simp at h
      have h1 := fetchLogs_error_shape env e' (by rw [hlog])
      rw [h] at h1
      exact absurd h1 (by simp)
    | ok logs =>
    simp only [hlog] at h
    by_cases hconc : (run.conclusion == some WORKFLOW_RUN_SUCCESSFUL_CONCLUSION_STATUS) = true
    · rw [if_neg (by simp [hconc])] at h
      cases hart : opts.artifactsPath with
      | none => rw [hart] at h; simp at h
      | some p =>
        rw [hart] at h
        cases hda : downloadArtifacts env run p with
        | mk aevs r4 =>
        cases r4 with
        | error e4 =>
          simp only [hda] at h
          simp at h
          rcases downloadArtifacts_error_shape env run p e4 (by rw [hda]) with
            h1 | ⟨n, h1⟩ | ⟨a, h1⟩ <;> (rw [h] at h1; exact absurd h1 (by simp))
        | ok u4 =>
          simp only [hda] at h
          simp at h
    · rw [if_pos (by simp only [Bool.not_eq_true] at hconc; simp [hconc])] at h
      simp at h


theorem runAction_trace_eval_aux (env : Env) (opts : RunOpts) (sevs : List Event)
    (outs : List SetOutcome) (t1 t2 t3 t4 : Nat) (runA run : WorkflowRun) (logs : String)
    (h1 : waitForCommit env.getCommitResp env.getCommitDur opts.commitTimeoutMs = .found () t1)
    (h2 : waitForBranch env.getBranchResp env.getBranchDur opts.branchTimeoutMs = .found () t2)
    (h3 : setSecrets env opts.secrets opts.syncSecrets = (sevs, .ok outs))
    (h4 : env.dispatchResp = .ok 204)
    (h5 : waitForWorkflowRunCreation env.listRunsCreationResp env.listRunsCreationDur
      env.nanoidValue opts.workflowRunCreationTimeoutMs = .found (some runA) t3)
    (h6 : waitForWorkflowRunCompletion env.listRunsCompletionResp env.listRunsCompletionDur
      env.nanoidValue opts.workflowRunCompletionTimeoutMs = .found (some run) t4)
    (h7 : env.fetchLogsResp = .ok logs)
    (hart : opts.artifactsPath = none) :
    runAction env opts
      = ([.commitWait, .branchWait] ++ sevs
          ++ [.dispatchCall, .runCreationWait, .runCompletionWait, .logFetchCall,
              .conclusionCheck run.conclusion],
         if !(run.conclusion == some WORKFLOW_RUN_SUCCESSFUL_CONCLUSION_STATUS) then
           .error (.workflowFailed run.conclusion)
         else .ok ()) := by
  have hd : triggerWorkflow env = (.dispatchCall, .ok env.nanoidValue) := by
    simp [triggerWorkflow, h4]
  have hlog : fetchWorkflowRunLogs env
      = (.logFetchCall, .ok ("\n----GITHUB WORKFLOW RUN LOGS START----\n" ++ logs
          ++ "----GITHUB WORKFLOW RUN LOGS END----\n")) := by
    simp [fetchWorkflowRunLogs, h7]
  unfold runAction
  simp only [h1, h2, h3, hd, h5, h6, hlog, hart]
  by_cases hconc : (run.conclusion == some WORKFLOW_RUN_SUCCESSFUL_CONCLUSION_STATUS) = true
  · rw [if_neg (by simp [hconc])]
    rw [if_neg (by simp [hconc])]
  · rw [if_pos (by simp only [Bool.not_eq_true] at hconc; simp [hconc])]
    rw [if_pos (by simp only [Bool.not_eq_true] at hconc; simp [hconc])]

theorem runAction_result_eval_aux (env : Env) (opts : RunOpts) (sevs : List Event)
    (outs : List SetOutcome) (t1 t2 t3 t4 : Nat) (runA run : WorkflowRun) (logs : String)
    (h1 : waitForCommit env.getCommitResp env.getCommitDur opts.commitTimeoutMs = .found () t1)
    (h2 : waitForBranch env.getBranchResp env.getBranchDur opts.branchTimeoutMs = .found () t2)
    (h3 : setSecrets env opts.secrets opts.syncSecrets = (sevs, .ok outs))
    (h4 : env.dispatchResp = .ok 204)
    (h5 : waitForWorkflowRunCreation env.listRunsCreationResp env.listRunsCreationDur
      env.nanoidValue opts.workflowRunCreationTimeoutMs = .found (some runA) t3)
    (h6 : waitForWorkflowRunCompletion env.listRunsCompletionResp env.listRunsCompletionDur
      env.nanoidValue opts.workflowRunCompletionTimeoutMs = .found (some run) t4)
    (h7 : env.fetchLogsResp = .ok logs) :
    (runAction env opts).2
      = if !(run.conclusion == some WORKFLOW_RUN_SUCCESSFUL_CONCLUSION_STATUS) then
          .error (.workflowFailed run.conclusion)
        else
          match opts.artifactsPath with
          | none => Except.ok ()
          | some p => (downloadArtifacts env run p).2 := by
  have hd : triggerWorkflow env = (.dispatchCall, .ok env.nanoidValue) := by
    simp [triggerWorkflow, h4]
  have hlog : fetchWorkflowRunLogs env
      = (.logFetchCall, .ok ("\n----GITHUB WORKFLOW RUN LOGS START----\n" ++ logs
          ++ "----GITHUB WORKFLOW RUN LOGS END----\n")) := by
    simp [fetchWorkflowRunLogs, h7]
  unfold runAction
  simp only [h1, h2, h3, hd, h5, h6, hlog]
  by_cases hconc : (run.conclusion == some WORKFLOW_RUN_SUCCESSFUL_CONCLUSION_STATUS) = true
  · rw [if_neg (by simp [hconc])]
    rw [if_neg (by simp [hconc])]
    cases hart : opts.artifactsPath with
    | none => rfl
    | some p =>
      cases hda : downloadArtifacts env run p with
      | mk aevs r4 => simp [hda]
  · rw [if_pos (by simp only [Bool.not_eq_true] at hconc; simp [hconc])]
    rw [if_pos (by simp only [Bool.not_eq_true] at hconc; simp [hconc])]

/-- C6: with an empty secrets list, sync flag off and no artifacts path, a
successful `runAction` performs exactly, in order: the commit wait, the
branch wait, the workflow dispatch, the run-creation wait, the run-completion
wait, the log fetch and the conclusion check — and no secret API call
(list/public-key/set/delete) and no artifact API call occurs. -/
theorem runAction_happy_path_trace (env : Env) (opts : RunOpts) (t1 t2 t3 t4 : Nat)
    (runA run : WorkflowRun) (logs : String)
    (hsec : opts.secrets = []) (hsync : opts.syncSecrets = false)
    (hart : opts.artifactsPath = none)
    (h1 : waitForCommit env.getCommitResp env.getCommitDur opts.commitTimeoutMs = .found () t1)
    (h2 : waitForBranch env.getBranchResp env.getBranchDur opts.branchTimeoutMs = .found () t2)
    (h4 : env.dispatchResp = .ok 204)
    (h5 : waitForWorkflowRunCreation env.listRunsCreationResp env.listRunsCreationDur
      env.nanoidValue opts.workflowRunCreationTimeoutMs = .found (some runA) t3)
    (h6 : waitForWorkflowRunCompletion env.listRunsCompletionResp env.listRunsCompletionDur
      env.nanoidValue opts.workflowRunCompletionTimeoutMs = .found (some run) t4)
    (h7 : env.fetchLogsResp = .ok logs)
    (hconc : run.conclusion = some WORKFLOW_RUN_SUCCESSFUL_CONCLUSION_STATUS) :
    runAction env opts
      = ([.commitWait, .branchWait, .dispatchCall, .runCreationWait, .runCompletionWait,
          .logFetchCall, .conclusionCheck (some WORKFLOW_RUN_SUCCESSFUL_CONCLUSION_STATUS)],
         .ok ()) := by
  have h3 : setSecrets env opts.secrets opts.syncSecrets = ([], .ok []) := by
    rw [hsec, hsync]
    rfl
  have := runAction_trace_eval_aux env opts [] [] t1 t2 t3 t4 runA run logs
    h1 h2 h3 h4 h5 h6 h7 hart
  rw [this, hconc]
  simp

theorem runAction_happy_path_trace_witness :
    runAction baseEnv happyOpts
      = ([.commitWait, .branchWait, .dispatchCall, .runCreationWait, .runCompletionWait,
          .logFetchCall, .conclusionCheck (some WORKFLOW_RUN_SUCCESSFUL_CONCLUSION_STATUS)],
         .ok ()) := by
  have h1 : waitForCommit baseEnv.getCommitResp baseEnv.getCommitDur happyOpts.commitTimeoutMs
      = .found () 0 := by
    unfold waitForCommit
    rw [tryFetchCommit.eq_def]
    rfl
  have h2 : waitForBranch baseEnv.getBranchResp baseEnv.getBranchDur happyOpts.branchTimeoutMs
      = .found () 0 := by
    unfold waitForBranch
    rw [tryFetchBranch.eq_def]
    rfl
  have h5 : waitForWorkflowRunCreation baseEnv.listRunsCreationResp baseEnv.listRunsCreationDur
      baseEnv.nanoidValue happyOpts.workflowRunCreationTimeoutMs
      = .found (some exampleRunA) 0 := by
    unfold waitForWorkflowRunCreation
    rw [checkIfWorkflowRunCreated.eq_def]
    rfl
  have h6 : waitForWorkflowRunCompletion baseEnv.listRunsCompletionResp
      baseEnv.listRunsCompletionDur baseEnv.nanoidValue
      happyOpts.workflowRunCompletionTimeoutMs = .found (some exampleRunA) 0 := by
    unfold waitForWorkflowRunCompletion
    rw [checkIfWorkflowRunCompleted.eq_def]
    rfl
  exact runAction_happy_path_trace baseEnv happyOpts 0 0 0 0 exampleRunA exampleRunA
    "log text" rfl rfl rfl h1 h2 rfl h5 h6 rfl rfl

/-- C7: after the completion wait returns a terminal run, `runAction` raises
the workflow-failed error carrying the observed conclusion exactly when the
conclusion is not the success sentinel; when the conclusion equals "success"
no workflow-failed error is raised; and the error's message contains the
observed conclusion string. -/
theorem conclusion_check_policy (env : Env) (opts : RunOpts) (sevs : List Event)
    (outs : List SetOutcome) (t1 t2 t3 t4 : Nat) (runA run : WorkflowRun) (logs : String)
    (h1 : waitForCommit env.getCommitResp env.getCommitDur opts.commitTimeoutMs = .found () t1)
    (h2 : waitForBranch env.getBranchResp env.getBranchDur opts.branchTimeoutMs = .found () t2)
    (h3 : setSecrets env opts.secrets opts.syncSecrets = (sevs, .ok outs))
    (h4 : env.dispatchResp = .ok 204)
    (h5 : waitForWorkflowRunCreation env.listRunsCreationResp env.listRunsCreationDur
      env.nanoidValue opts.workflowRunCreationTimeoutMs = .found (some runA) t3)
    (h6 : waitForWorkflowRunCompletion env.listRunsCompletionResp env.listRunsCompletionDur
      env.nanoidValue opts.workflowRunCompletionTimeoutMs = .found (some run) t4)
    (h7 : env.fetchLogsResp = .ok logs) :
    (run.conclusion ≠ some WORKFLOW_RUN_SUCCESSFUL_CONCLUSION_STATUS →
      (runAction env opts).2 = .error (.workflowFailed run.conclusion))
    ∧ (run.conclusion = some WORKFLOW_RUN_SUCCESSFUL_CONCLUSION_STATUS →
      ∀ c, (runAction env opts).2 ≠ .error (.workflowFailed c))
    ∧ jsIncludes (workflowFailedMessage run.conclusion) (jsShow run.conclusion) = true := by
  have hB := runAction_result_eval_aux env opts sevs outs t1 t2 t3 t4 runA run logs
    h1 h2 h3 h4 h5 h6 h7
  refine ⟨?_, ?_, ?_⟩
  · intro hne
    rw [hB]
    rw [if_pos (by simp [hne])]
  · intro hcs c
    rw [hB]
    rw [if_neg (by simp [hcs])]
    cases hart : opts.artifactsPath with
    | none => simp
    | some p =>
      intro hcontra
      rcases downloadArtifacts_error_shape env run p (.workflowFailed c) hcontra with
        h1x | ⟨n, h1x⟩ | ⟨a, h1x⟩ <;> exact absurd h1x (by simp)
  · exact jsIncludes_append_aux "Workflow run failed with conclusion: \"" (jsShow run.conclusion)
      "\"."

theorem conclusion_check_policy_witness :
    ((runAction baseEnv happyOpts).2 ≠ .error (.workflowFailed (some "failure")))
    ∧ jsIncludes (workflowFailedMessage (some WORKFLOW_RUN_SUCCESSFUL_CONCLUSION_STATUS))
        (jsShow (some WORKFLOW_RUN_SUCCESSFUL_CONCLUSION_STATUS)) = true := by
  have h1 : waitForCommit baseEnv.getCommitResp baseEnv.getCommitDur happyOpts.commitTimeoutMs
      = .found () 0 := by
    unfold waitForCommit
    rw [tryFetchCommit.eq_def]
    rfl
  have h2 : waitForBranch baseEnv.getBranchResp baseEnv.getBranchDur happyOpts.branchTimeoutMs
      = .found () 0 := by
    unfold waitForBranch
    rw [tryFetchBranch.eq_def]
    rfl
  have h5 : waitForWorkflowRunCreation baseEnv.listRunsCreationResp baseEnv.listRunsCreationDur
      baseEnv.nanoidValue happyOpts.workflowRunCreationTimeoutMs
      = .found (some exampleRunA) 0 := by
    unfold waitForWorkflowRunCreation
    rw [checkIfWorkflowRunCreated.eq_def]
    rfl
  have h6 : waitForWorkflowRunCompletion baseEnv.listRunsCompletionResp
      baseEnv.listRunsCompletionDur baseEnv.nanoidValue
      happyOpts.workflowRunCompletionTimeoutMs = .found (some exampleRunA) 0 := by
    unfold waitForWorkflowRunCompletion
    rw [checkIfWorkflowRunCompleted.eq_def]
    rfl
  have H := conclusion_check_policy baseEnv happyOpts [] [] 0 0 0 0 exampleRunA exampleRunA
    "log text" h1 h2 rfl rfl h5 h6 rfl
  exact ⟨H.2.1 rfl (some "failure"), H.2.2⟩

theorem waiters_never_resolve_null_witness :
    (some exampleRunA : Option WorkflowRun) ≠ none := by
  have h : waitForWorkflowRunCreation (fun _ => .ok (some [exampleRunA])) zeroDur "abc123"
      300000 = .found (some exampleRunA) 0 := by
    unfold waitForWorkflowRunCreation
    rw [checkIfWorkflowRunCreated.eq_def]
    rfl
  exact waiters_never_resolve_null.1 (fun _ => .ok (some [exampleRunA])) zeroDur "abc123"
    300000 (some exampleRunA) 0 h

end GhRunner
